import Mathlib

/-!
Shallow embedding of the SyncMaster synchronized-lyrics embedder
(`src/mp3_embedder.py`, class `MP3Embedder`).  Python dict records become
structures with optional fields (`.get` with a default models a possibly
missing key), floating-point seconds become rationals with exact
arithmetic, the mutagen tag library becomes an explicit frame-list model,
and the file system becomes an association list of path/file pairs where
a later write shadows an earlier one.
-/

namespace SyncMaster

/-- Python `int(q)` on a number: truncation toward zero. -/
def pyInt (q : ℚ) : ℤ := if 0 ≤ q then ⌊q⌋ else ⌈q⌉

/-- Python `str.strip()`: drop leading and trailing whitespace. -/
def pyStrip (s : String) : String :=
  ⟨((s.data.dropWhile Char.isWhitespace).reverse.dropWhile Char.isWhitespace).reverse⟩

/-- Python `sep.join(l)`. -/
def pyJoin (sep : String) : List String → String
  | [] => ""
  | [x] => x
  | x :: y :: xs => x ++ sep ++ pyJoin sep (y :: xs)

/-- The list `pat` occurs at the front of `l`. -/
def beginsWith : List Char → List Char → Bool
  | [], _ => true
  | _ :: _, [] => false
  | p :: ps, c :: cs => p = c && beginsWith ps cs

/-- Fuel-driven worker for `pyReplace`; fuel is instantiated with the
length of the subject so it never runs out.  (Python's empty-pattern
behaviour is irrelevant here: the embedder only replaces ".mp3".) -/
def replaceFuel (pat rep : List Char) : ℕ → List Char → List Char
  | 0, s => s
  | _ + 1, [] => []
  | fuel + 1, c :: rest =>
    if pat ≠ [] ∧ beginsWith pat (c :: rest) then
      rep ++ replaceFuel pat rep fuel (rest.drop (pat.length - 1))
    else
      c :: replaceFuel pat rep fuel rest

/-- Python `s.replace(pat, rep)`: replace every non-overlapping
occurrence of `pat`, scanning left to right. -/
def pyReplace (s pat rep : String) : String :=
  ⟨replaceFuel pat.data rep.data s.data.length s.data⟩

/-- Python `path.lower().endswith(".mp3")`. -/
def endsWithMp3 (p : String) : Bool :=
  beginsWith (".mp3".data.reverse) ((p.data.map Char.toLower).reverse)

/-- One word record from the transcriber: a Python dict with the keys
`word`, `start`, `end`, any of which may be absent. -/
structure WordData where
  word : Option String
  start : Option ℚ
  «end» : Option ℚ
deriving DecidableEq

/-- MP3Embedder._create_sylt_data: per-word SYLT entries, written as the
source's accumulator loop (`word = d.get('word','').strip()`,
`start = d.get('start', 0)`, keep `(word, int(start*1000))` when `word`
is non-empty). -/
def createSyltData (wordTimestamps : List WordData) : List (String × ℤ) :=
  wordTimestamps.foldl
    (fun syltData wordData =>
      let word := pyStrip (wordData.word.getD "")
      let startTime := wordData.start.getD 0
      if word ≠ "" then syltData ++ [(word, pyInt (startTime * 1000))] else syltData)
    []

/-- Text of one grouped line: space-join of the raw `word` fields, then
stripped — exactly `' '.join([w.get('word','') for w in line]).strip()`. -/
def lineText (grp : List WordData) : String :=
  pyStrip (pyJoin " " (grp.map (fun w => w.word.getD "")))

/-- Entry emitted for one non-empty group in
MP3Embedder._create_line_based_sylt_data: timestamp from the group's
first word, skipped when the joined stripped text is empty. -/
def lineEntry (grp : List WordData) : Option (String × ℤ) :=
  match grp with
  | [] => none
  | first :: _ =>
    if lineText grp ≠ "" then
      some (lineText grp, pyInt ((first.start.getD 0) * 1000))
    else none

/-- The groups formed by the accumulate-and-flush loop shared by
`_create_line_based_sylt_data` and `create_lrc_file`: append each word to
`current_line`, flush when `len(current_line) >= k`, flush the non-empty
remainder at the end.  (A non-positive Python `k` behaves exactly like
`k = 0` here: the length test is then always true.) -/
def chunkLoop (k : ℕ) (currentLine : List WordData) : List WordData → List (List WordData)
  | [] => if currentLine.isEmpty then [] else [currentLine]
  | w :: rest =>
    let line := currentLine ++ [w]
    if k ≤ line.length then line :: chunkLoop k [] rest
    else chunkLoop k line rest

/-- Loop body of MP3Embedder._create_line_based_sylt_data. -/
def lineLoop (k : ℕ) (currentLine : List WordData) : List WordData → List (String × ℤ)
  | [] => (lineEntry currentLine).toList
  | w :: rest =>
    let line := currentLine ++ [w]
    if k ≤ line.length then (lineEntry line).toList ++ lineLoop k [] rest
    else lineLoop k line rest

/-- MP3Embedder._create_line_based_sylt_data (source default for
`max_words_per_line` is 6). -/
def createLineBasedSyltData (wordTimestamps : List WordData) (maxWordsPerLine : ℕ) :
    List (String × ℤ) :=
  lineLoop maxWordsPerLine [] wordTimestamps

/-- A mutagen SYLT frame: `SYLT(encoding, lang, format, type, text)`.
`Encoding.UTF8` is the numeral 3. -/
structure SyltFrame where
  encoding : ℕ
  lang : String
  format : ℕ
  ctype : ℕ
  text : List (String × ℤ)
deriving DecidableEq

/-- A mutagen USLT frame: `USLT(encoding, lang, desc, text)`. -/
structure UsltFrame where
  encoding : ℕ
  lang : String
  desc : String
  text : String
deriving DecidableEq

/-- One metadata frame in an ID3 tag-set; frames of kinds the embedder
never touches are kept opaque. -/
inductive Frame where
  | sylt : SyltFrame → Frame
  | uslt : UsltFrame → Frame
  | other : String → Frame
deriving DecidableEq

/-- Does the frame have kind SYLT. -/
def frameIsSylt : Frame → Bool
  | .sylt _ => true
  | _ => false

/-- Does the frame have kind USLT. -/
def frameIsUslt : Frame → Bool
  | .uslt _ => true
  | _ => false

/-- Mutagen `tags.getall('SYLT')`: the SYLT frames, in tag order. -/
def getallSylt (tags : List Frame) : List SyltFrame :=
  tags.filterMap (fun fr => match fr with | .sylt s => some s | _ => none)

/-- Mutagen `tags.getall('USLT')`. -/
def getallUslt (tags : List Frame) : List UsltFrame :=
  tags.filterMap (fun fr => match fr with | .uslt u => some u | _ => none)

/-- An MP3 file: opaque audio payload bytes plus an optional ID3 tag-set
(`None` models a file with no tag-set at all). -/
structure MP3File where
  audio : List ℕ
  tags : Option (List Frame)
deriving DecidableEq

/-- Number of SYLT frames in a file's tag-set. -/
def countSyltF (f : MP3File) : ℕ := ((f.tags.getD []).filter frameIsSylt).length

/-- Number of USLT frames in a file's tag-set. -/
def countUsltF (f : MP3File) : ℕ := ((f.tags.getD []).filter frameIsUslt).length

/-- Failure switches for the metadata tag-set library: each flag makes
the corresponding mutagen call (`MP3(...)`, `add_tags`, `delall`, `add`,
`save`) raise. -/
structure TagLib where
  openFails : Bool
  addTagsFails : Bool
  delallFails : Bool
  addFails : Bool
  saveFails : Bool

/-- Environment of one embed call: the tag library's behaviour and the
result of an `ffmpeg` conversion of the source (`none` = ffmpeg is
unavailable or fails, so the source bytes are copied verbatim). -/
structure Env where
  lib : TagLib
  ffmpeg : Option MP3File

/-- Every tag-set library call raises. -/
def allCallsFail (lib : TagLib) : Prop :=
  lib.openFails = true ∧ lib.addTagsFails = true ∧ lib.delallFails = true ∧
    lib.addFails = true ∧ lib.saveFails = true

/-- No tag-set library call raises (rung-1 success of the ladder). -/
def noCallFails (lib : TagLib) : Prop :=
  lib.openFails = false ∧ lib.addTagsFails = false ∧ lib.delallFails = false ∧
    lib.addFails = false ∧ lib.saveFails = false

/-- The tag rewrite performed by lines 57-93 of `embed_sylt_lyrics` when
no call raises: create an empty tag-set if absent, `delall('SYLT')`, add
the new SYLT frame (UTF-8, lang "eng", format 2 = absolute ms,
type 1 = lyrics), `delall('USLT')`, add the new USLT frame, save. -/
def writeFrames (f : MP3File) (syltData : List (String × ℤ)) (text : String) : MP3File :=
  let tags0 := f.tags.getD []
  let t1 := (tags0.filter (fun fr => !frameIsSylt fr)) ++ [Frame.sylt ⟨3, "eng", 2, 1, syltData⟩]
  let t2 := (t1.filter (fun fr => !frameIsUslt fr)) ++ [Frame.uslt ⟨3, "eng", "", text⟩]
  { f with tags := some t2 }

/-- The guarded tag pipeline of `embed_sylt_lyrics` lines 55-95: `none`
when any library call raises (the inner `except` branch is then taken,
and the partially modified in-memory tag-set is never persisted),
otherwise the fully rewritten file as saved to disk. -/
def tagPipeline (lib : TagLib) (f : MP3File) (syltData : List (String × ℤ))
    (text : String) : Option MP3File :=
  if lib.openFails then none
  else if f.tags = none ∧ lib.addTagsFails then none
  else if lib.delallFails ∨ lib.addFails ∨ lib.saveFails then none
  else some (writeFrames f syltData text)

/-- The scratch file system: later writes shadow earlier ones. -/
def FS : Type := List (String × MP3File)

/-- Contents of the file at `p`, if any. -/
def readFS (fs : FS) (p : String) : Option MP3File :=
  (List.find? (fun e => e.1 == p) fs).map (fun e => e.2)

/-- Re-open a path for the read-only diagnostics, as an exception-typed
read: a missing file raises. -/
def readFileFS (fs : FS) (p : String) : Except String MP3File :=
  match readFS fs p with
  | some f => Except.ok f
  | none => Except.error "file not found"

/-- Path `os.path.join(self.temp_dir, output_filename)`. -/
def outputPathOf (tempDir name : String) : String := tempDir ++ "/" ++ name

/-- Container preparation (lines 36-49): copy verbatim when the source
already ends in ".mp3" (case-insensitively); otherwise use the ffmpeg
conversion result, falling back to a verbatim copy when ffmpeg fails. -/
def prepareCopy (audioPath : String) (src : MP3File) (ffmpeg : Option MP3File) : MP3File :=
  if endsWithMp3 audioPath then src else ffmpeg.getD src

/-- MP3Embedder.embed_sylt_lyrics: returns the returned path together
with the files written.  An empty entry list skips metadata writing and
returns the prepared copy (lines 103-105); a raising library call is
absorbed into the `_backup` copy of the *original* source bytes
(lines 97-102), never propagated. -/
def embed (env : Env) (tempDir audioPath : String) (src : MP3File)
    (wordTimestamps : List WordData) (text outputFilename : String) : String × FS :=
  let outputPath := outputPathOf tempDir outputFilename
  let prepared := prepareCopy audioPath src env.ffmpeg
  let fs0 : FS := [(outputPath, prepared)]
  let syltData := createSyltData wordTimestamps
  if syltData.isEmpty then (outputPath, fs0)
  else
    match tagPipeline env.lib prepared syltData text with
    | some f => (outputPath, (outputPath, f) :: fs0)
    | none =>
      let backupPath := pyReplace outputPath ".mp3" "_backup.mp3"
      (backupPath, (backupPath, src) :: fs0)

/-- The dictionary returned by MP3Embedder.verify_sylt_embedding. -/
structure VerificationReport where
  has_sylt : Bool
  has_uslt : Bool
  sylt_entries : ℕ
  error : Option String
deriving DecidableEq

/-- MP3Embedder.verify_sylt_embedding: a raising read yields the
all-false report with the error string; `if audio_file.tags:` is Python
truthiness, so both a missing and an empty tag-set leave the initial
all-false report; `sylt_entries` is
`len(sylt_frames[0].text) if sylt_frames[0].text else 0`, which equals
the length of the first SYLT frame's entry list. -/
def verify (r : Except String MP3File) : VerificationReport :=
  match r with
  | .error e => ⟨false, false, 0, some e⟩
  | .ok f =>
    match f.tags with
    | none => ⟨false, false, 0, none⟩
    | some tags =>
      if tags.isEmpty then ⟨false, false, 0, none⟩
      else
        { has_sylt := !(getallSylt tags).isEmpty
          has_uslt := !(getallUslt tags).isEmpty
          sylt_entries := match getallSylt tags with
            | [] => 0
            | s :: _ => s.text.length
          error := none }

/-- MP3Embedder.extract_sylt_lyrics: every SYLT frame's `(text, ms)`
entries, as `(text, ms / 1000.0)` records, in order; any failure or a
missing/empty tag-set yields `[]`. -/
def extract (r : Except String MP3File) : List (String × ℚ) :=
  match r with
  | .error _ => []
  | .ok f =>
    match f.tags with
    | none => []
    | some tags =>
      if tags.isEmpty then []
      else
        (getallSylt tags).flatMap (fun s =>
          if s.text.isEmpty then []
          else s.text.map (fun e => (e.1, (e.2 : ℚ) / 1000)))

/-- Python `f"{n:02d}"` for the values arising here. -/
def pad2 (n : ℤ) : String :=
  let s := toString n
  if s.length < 2 then "0" ++ s else s

/-- Python `f"{q:05.2f}"` for `q` in `[0, 60)`: round to hundredths,
then print zero-padded. -/
def fmt052 (q : ℚ) : String :=
  let h : ℤ := round (q * 100)
  pad2 (h / 100) ++ "." ++ pad2 (h % 100)

/-- The `[mm:ss.xx]` stamp of `create_lrc_file`:
`minutes = int(start // 60)`, `seconds = start % 60`,
`f"[{minutes:02d}:{seconds:05.2f}]"`. -/
def lrcTimestamp (startTime : ℚ) : String :=
  let minutes : ℤ := ⌊startTime / 60⌋
  let seconds : ℚ := startTime - 60 * (⌊startTime / 60⌋ : ℚ)
  "[" ++ pad2 minutes ++ ":" ++ fmt052 seconds ++ "]"

/-- One output line of `create_lrc_file`: the stamp of the group's first
word followed by the space-joined raw words (no strip, no skipping). -/
def lrcLine (grp : List WordData) : String :=
  match grp with
  | [] => ""
  | first :: _ =>
    lrcTimestamp (first.start.getD 0) ++ pyJoin " " (grp.map (fun w => w.word.getD ""))

/-- Loop body of MP3Embedder.create_lrc_file: groups of 8 words
(hard-coded), the non-empty remainder becoming a final line. -/
def lrcLoop (currentLine : List WordData) : List WordData → List String
  | [] => if currentLine.isEmpty then [] else [lrcLine currentLine]
  | w :: rest =>
    let line := currentLine ++ [w]
    if 8 ≤ line.length then lrcLine line :: lrcLoop [] rest
    else lrcLoop line rest

/-- The lines of the LRC file produced by MP3Embedder.create_lrc_file. -/
def lrcLines (wordTimestamps : List WordData) : List String := lrcLoop [] wordTimestamps

/-- The full file content written by `create_lrc_file`
(`'\n'.join(lrc_lines)`). -/
def createLrcContent (wordTimestamps : List WordData) : String :=
  pyJoin "\n" (lrcLines wordTimestamps)

/-! Helper lemmas about the per-word construction loop. -/

/-- One step of the `_create_sylt_data` accumulator loop. -/
def syltStep (syltData : List (String × ℤ)) (wordData : WordData) : List (String × ℤ) :=
  let word := pyStrip (wordData.word.getD "")
  let startTime := wordData.start.getD 0
  if word ≠ "" then syltData ++ [(word, pyInt (startTime * 1000))] else syltData

lemma createSyltData_eq_foldl (ws : List WordData) :
    createSyltData ws = ws.foldl syltStep [] := rfl

lemma syltStep_acc (acc : List (String × ℤ)) (d : WordData) :
    syltStep acc d = acc ++ syltStep [] d := by
  unfold syltStep
  by_cases h : pyStrip (d.word.getD "") ≠ "" <;> simp [h]

lemma foldl_syltStep_acc (ws : List WordData) (acc : List (String × ℤ)) :
    ws.foldl syltStep acc = acc ++ ws.foldl syltStep [] := by
  induction ws generalizing acc with
  | nil => simp
  | cons d ws ih =>
    rw [List.foldl_cons, List.foldl_cons, ih, ih (syltStep [] d), syltStep_acc,
      List.append_assoc]

lemma createSyltData_cons (d : WordData) (ws : List WordData) :
    createSyltData (d :: ws) = syltStep [] d ++ createSyltData ws := by
  rw [createSyltData_eq_foldl, List.foldl_cons, foldl_syltStep_acc,
    ← createSyltData_eq_foldl]

/-- C2 (amended: the timestamp is Python `int(start * 1000)`, i.e.
truncation toward zero, not `round`): per-word construction emits the
entry `(strip(w), int(s * 1000))` exactly when the stripped word is
non-empty, emits nothing otherwise, and preserves the order of the
surviving entries. -/
theorem perWordEntryShape (d : WordData) (ws : List WordData) :
    createSyltData ([] : List WordData) = [] ∧
    createSyltData (d :: ws) =
      (if pyStrip (d.word.getD "") ≠ "" then
        [(pyStrip (d.word.getD ""), pyInt ((d.start.getD 0) * 1000))]
      else []) ++ createSyltData ws := by
  refine ⟨rfl, ?_⟩
  rw [createSyltData_cons]
  unfold syltStep
  by_cases h : pyStrip (d.word.getD "") ≠ "" <;> simp [h]

/-- C2 counterexample: at `start = 0.0016` seconds the code stores
`int(1.6) = 1` ms, while the claim's `round(s * 1000)` is `2` ms. -/
theorem perWordRoundCx :
    createSyltData [⟨some "hi", some (0.0016 : ℚ), none⟩] = [("hi", 1)] ∧
    round ((0.0016 : ℚ) * 1000) = (2 : ℤ) := by
  constructor
  · have hw : pyStrip "hi" ≠ "" := by decide
    rw [show ([⟨some "hi", some (0.0016 : ℚ), none⟩] : List WordData)
        = ⟨some "hi", some (0.0016 : ℚ), none⟩ :: [] from rfl,
      createSyltData_cons]
    unfold syltStep
    simp only [Option.getD_some, hw, if_pos, ne_eq, not_false_iff, ite_true]
    have : pyInt ((0.0016 : ℚ) * 1000) = 1 := by
      unfold pyInt
      norm_num
    simp only [this, createSyltData, List.foldl_nil, List.nil_append]
    decide
  · norm_num [round_eq]

/-- C9: a record with no `start` key gets the default 0, hence a 0 ms
timestamp, with no error, provided its stripped word is non-empty. -/
theorem perWordMissingStartZero (w : String) (e : Option ℚ) (ws : List WordData)
    (hw : pyStrip w ≠ "") :
    createSyltData (⟨some w, none, e⟩ :: ws) = (pyStrip w, 0) :: createSyltData ws := by
  rw [createSyltData_cons]
  unfold syltStep
  simp [hw, pyInt]

theorem perWordMissingStartZeroW :
    pyStrip "hello" ≠ "" ∧
    createSyltData [⟨some "hello", none, none⟩] = [(pyStrip "hello", 0)] := by
  refine ⟨by decide, ?_⟩
  have h := perWordMissingStartZero "hello" none [] (by decide)
  simpa using h

/-- C6: verification is a total function (it never raises): a file with
no tag-set yields the all-false/zero report with no error, and a read
failure yields the all-false/zero report with the non-null error
string. -/
theorem verifyNeverRaises (f : MP3File) (e : String) (h : f.tags = none) :
    verify (Except.ok f) = ⟨false, false, 0, none⟩ ∧
    verify (Except.error e) = ⟨false, false, 0, some e⟩ ∧
    (verify (Except.error e)).error ≠ none := by
  refine ⟨?_, rfl, by simp [verify]⟩
  simp [verify, h]

theorem verifyNeverRaisesW :
    (MP3File.mk [7] none).tags = none ∧
    verify (Except.ok (MP3File.mk [7] none)) = ⟨false, false, 0, none⟩ := by
  exact ⟨rfl, (verifyNeverRaises ⟨[7], none⟩ "boom" rfl).1⟩

/-- C10: with several SYLT frames present, verification counts only the
entries of the first one, while still reporting has_sylt = true. -/
theorem verifyFirstSyltOnly (f : MP3File) (tags : List Frame) (s1 s2 : SyltFrame)
    (rest : List SyltFrame) (ht : f.tags = some tags)
    (hs : getallSylt tags = s1 :: s2 :: rest) :
    (verify (Except.ok f)).has_sylt = true ∧
    (verify (Except.ok f)).sylt_entries = s1.text.length := by
  have hne : tags.isEmpty = false := by
    cases tags with
    | nil => simp [getallSylt] at hs
    | cons a l => rfl
  constructor <;> simp [verify, ht, hne, hs]

theorem verifyFirstSyltOnlyW :
    (MP3File.mk [0] (some [Frame.sylt ⟨3, "eng", 2, 1, [("a", 1), ("b", 2)]⟩,
        Frame.sylt ⟨3, "eng", 2, 1, [("c", 3), ("d", 4), ("e", 5)]⟩])).tags
      = some [Frame.sylt ⟨3, "eng", 2, 1, [("a", 1), ("b", 2)]⟩,
        Frame.sylt ⟨3, "eng", 2, 1, [("c", 3), ("d", 4), ("e", 5)]⟩] ∧
    (verify (Except.ok (MP3File.mk [0]
        (some [Frame.sylt ⟨3, "eng", 2, 1, [("a", 1), ("b", 2)]⟩,
          Frame.sylt ⟨3, "eng", 2, 1, [("c", 3), ("d", 4), ("e", 5)]⟩])))).sylt_entries = 2 := by
  refine ⟨rfl, ?_⟩
  exact (verifyFirstSyltOnly _ _ ⟨3, "eng", 2, 1, [("a", 1), ("b", 2)]⟩
    ⟨3, "eng", 2, 1, [("c", 3), ("d", 4), ("e", 5)]⟩ [] rfl (by decide)).2

/-! Helper lemmas about the embed fallback ladder. -/

lemma embed_backup (env : Env) (tempDir audioPath : String) (src : MP3File)
    (ws : List WordData) (text name : String)
    (hopen : env.lib.openFails = true)
    (hne : (createSyltData ws).isEmpty = false) :
    embed env tempDir audioPath src ws text name
      = (pyReplace (outputPathOf tempDir name) ".mp3" "_backup.mp3",
         [(pyReplace (outputPathOf tempDir name) ".mp3" "_backup.mp3", src),
          (outputPathOf tempDir name, prepareCopy audioPath src env.ffmpeg)]) := by
  simp only [embed, tagPipeline, hne, hopen, Bool.false_eq_true, if_false, if_true,
    ite_true, ite_false]

lemma embed_success (env : Env) (tempDir audioPath : String) (src : MP3File)
    (ws : List WordData) (text name : String)
    (hl : noCallFails env.lib)
    (hne : (createSyltData ws).isEmpty = false) :
    embed env tempDir audioPath src ws text name
      = (outputPathOf tempDir name,
         [(outputPathOf tempDir name,
           writeFrames (prepareCopy audioPath src env.ffmpeg) (createSyltData ws) text),
          (outputPathOf tempDir name, prepareCopy audioPath src env.ffmpeg)]) := by
  obtain ⟨h1, h2, h3, h4, h5⟩ := hl
  simp only [embed, tagPipeline, hne, h1, h2, h3, h4, h5, Bool.false_eq_true, and_false,
    or_self, if_false, ite_false]

lemma readFS_head (p : String) (f : MP3File) (fs : List (String × MP3File)) :
    readFS ((p, f) :: fs) p = some f := by
  simp [readFS, List.find?]

/-- C1 (amended: the backup name is the primary output path with ".mp3"
replaced by "_backup.mp3", so it is distinct from the primary output
exactly when that replacement changes the path, i.e. when the path
contains ".mp3"): if every tag-set library call raises and the entry
list is non-empty, embed does not propagate the exception, returns the
backup path, and the backup file's bytes are the original source's. -/
theorem embedFallbackBackup (env : Env) (tempDir audioPath : String) (src : MP3File)
    (ws : List WordData) (text name : String)
    (hfail : allCallsFail env.lib)
    (hne : (createSyltData ws).isEmpty = false)
    (hd : pyReplace (outputPathOf tempDir name) ".mp3" "_backup.mp3"
        ≠ outputPathOf tempDir name) :
    (embed env tempDir audioPath src ws text name).1
        = pyReplace (outputPathOf tempDir name) ".mp3" "_backup.mp3" ∧
    (embed env tempDir audioPath src ws text name).1 ≠ outputPathOf tempDir name ∧
    readFS (embed env tempDir audioPath src ws text name).2
        (embed env tempDir audioPath src ws text name).1 = some src := by
  rw [embed_backup env tempDir audioPath src ws text name hfail.1 hne]
  exact ⟨rfl, hd, readFS_head _ _ _⟩

theorem embedFallbackBackupW :
    allCallsFail ⟨true, true, true, true, true⟩ ∧
    (createSyltData [⟨some "hi", some 1, none⟩]).isEmpty = false ∧
    pyReplace (outputPathOf "/tmp" "song.mp3") ".mp3" "_backup.mp3"
        ≠ outputPathOf "/tmp" "song.mp3" ∧
    readFS (embed ⟨⟨true, true, true, true, true⟩, none⟩ "/tmp" "a.mp3" ⟨[0], none⟩
          [⟨some "hi", some 1, none⟩] "hi" "song.mp3").2
        (embed ⟨⟨true, true, true, true, true⟩, none⟩ "/tmp" "a.mp3" ⟨[0], none⟩
          [⟨some "hi", some 1, none⟩] "hi" "song.mp3").1
      = some ⟨[0], none⟩ := by
  refine ⟨⟨rfl, rfl, rfl, rfl, rfl⟩, by decide, by decide, ?_⟩
  exact (embedFallbackBackup ⟨⟨true, true, true, true, true⟩, none⟩ "/tmp" "a.mp3"
    ⟨[0], none⟩ [⟨some "hi", some 1, none⟩] "hi" "song.mp3"
    ⟨rfl, rfl, rfl, rfl, rfl⟩ (by decide) (by decide)).2.2

/-- C1 counterexample: with an output filename that does not contain
".mp3" (here "song.wav"), the "backup" path returned after a raising
library call is the primary output path itself — it is not distinctly
named. -/
theorem embedFallbackBackupCx :
    (embed ⟨⟨true, true, true, true, true⟩, none⟩ "/tmp" "a.mp3" ⟨[0], none⟩
        [⟨some "hi", some 1, none⟩] "hi" "song.wav").1
      = outputPathOf "/tmp" "song.wav" := by decide

/-- C7 (amended: the returned file is the prepared copy of the source,
verbatim, so it contains a synchronized block exactly when the source
already did; for a source without one, none is present): when the
constructed entry list is empty, embed skips metadata writing, writes
only the prepared copy, and returns its path as a success. -/
theorem embedEmptyEntriesCopy (env : Env) (tempDir audioPath : String) (src : MP3File)
    (ws : List WordData) (text name : String)
    (he : (createSyltData ws).isEmpty = true)
    (hm : endsWithMp3 audioPath = true) :
    embed env tempDir audioPath src ws text name
        = (outputPathOf tempDir name, [(outputPathOf tempDir name, src)]) ∧
    (countSyltF src = 0 →
      ∀ g, readFS (embed env tempDir audioPath src ws text name).2
          (embed env tempDir audioPath src ws text name).1 = some g → countSyltF g = 0) := by
  have h1 : embed env tempDir audioPath src ws text name
      = (outputPathOf tempDir name, [(outputPathOf tempDir name, src)]) := by
    simp only [embed, he, if_true, ite_true, prepareCopy, hm]
  refine ⟨h1, fun h0 g hg => ?_⟩
  rw [h1, readFS_head] at hg
  cases hg
  exact h0

theorem embedEmptyEntriesCopyW :
    (createSyltData [⟨some "  ", some 1, none⟩]).isEmpty = true ∧
    endsWithMp3 "a.mp3" = true ∧
    embed ⟨⟨false, false, false, false, false⟩, none⟩ "/t" "a.mp3" ⟨[1], none⟩
        [⟨some "  ", some 1, none⟩] "x" "o.mp3"
      = (outputPathOf "/t" "o.mp3", [(outputPathOf "/t" "o.mp3", ⟨[1], none⟩)]) := by
  refine ⟨by decide, by decide, ?_⟩
  exact (embedEmptyEntriesCopy ⟨⟨false, false, false, false, false⟩, none⟩ "/t" "a.mp3"
    ⟨[1], none⟩ [⟨some "  ", some 1, none⟩] "x" "o.mp3" (by decide) (by decide)).1

/-- C7 counterexample: for a source that already carries a SYLT frame
and an input whose entry construction is empty, the returned file (the
verbatim copy) still contains a synchronized block, against the claim's
"no synchronized block is present in the returned file". -/
theorem embedEmptyEntriesCopyCx :
    countSyltF ((readFS (embed ⟨⟨false, false, false, false, false⟩, none⟩ "/t" "a.mp3"
          ⟨[1], some [Frame.sylt ⟨3, "eng", 2, 1, [("x", 5)]⟩]⟩
          [⟨some "", some 0, none⟩] "" "o.mp3").2
        (embed ⟨⟨false, false, false, false, false⟩, none⟩ "/t" "a.mp3"
          ⟨[1], some [Frame.sylt ⟨3, "eng", 2, 1, [("x", 5)]⟩]⟩
          [⟨some "", some 0, none⟩] "" "o.mp3").1).getD ⟨[], none⟩) = 1 := by decide

/-! Helper lemmas about the frame rewrite of a successful save. -/

lemma filter_sylt_after_delall (l : List Frame) (p : Frame → Bool) :
    ((l.filter (fun fr => !frameIsSylt fr)).filter p).filter frameIsSylt = [] := by
  refine List.filter_eq_nil_iff.mpr (fun fr hfr => ?_)
  have h1 := (List.mem_filter.mp hfr).1
  have h2 := (List.mem_filter.mp h1).2
  simp only [Bool.not_eq_true'] at h2
  simp [h2]

lemma getallSylt_after_delall (l : List Frame) (p : Frame → Bool) :
    getallSylt ((l.filter (fun fr => !frameIsSylt fr)).filter p) = [] := by
  refine List.filterMap_eq_nil_iff.mpr (fun fr hfr => ?_)
  have h1 := (List.mem_filter.mp hfr).1
  have h2 := (List.mem_filter.mp h1).2
  cases fr <;> simp_all [frameIsSylt]

lemma filter_uslt_after_delall (l : List Frame) :
    (l.filter (fun fr => !frameIsUslt fr)).filter frameIsUslt = [] := by
  refine List.filter_eq_nil_iff.mpr (fun fr hfr => ?_)
  have h2 := (List.mem_filter.mp hfr).2
  simp only [Bool.not_eq_true'] at h2
  simp [h2]

lemma writeFrames_tags (f : MP3File) (d : List (String × ℤ)) (t : String) :
    (writeFrames f d t).tags
      = some ((((f.tags.getD []).filter (fun fr => !frameIsSylt fr)).filter
            (fun fr => !frameIsUslt fr) ++ [Frame.sylt ⟨3, "eng", 2, 1, d⟩])
          ++ [Frame.uslt ⟨3, "eng", "", t⟩]) := by
  simp [writeFrames, List.filter_append, frameIsUslt]

lemma getallSylt_append (l1 l2 : List Frame) :
    getallSylt (l1 ++ l2) = getallSylt l1 ++ getallSylt l2 :=
  List.filterMap_append l1 l2 _

lemma countSylt_writeFrames (f : MP3File) (d : List (String × ℤ)) (t : String) :
    countSyltF (writeFrames f d t) = 1 := by
  rw [countSyltF, writeFrames_tags, Option.getD_some, List.filter_append,
    List.filter_append, filter_sylt_after_delall]
  simp [frameIsSylt]

lemma countUslt_writeFrames (f : MP3File) (d : List (String × ℤ)) (t : String) :
    countUsltF (writeFrames f d t) = 1 := by
  rw [countUsltF, writeFrames_tags, Option.getD_some, List.filter_append,
    List.filter_append, filter_uslt_after_delall]
  simp [frameIsUslt]

lemma getallSylt_writeFrames (f : MP3File) (d : List (String × ℤ)) (t : String) :
    getallSylt ((writeFrames f d t).tags.getD []) = [⟨3, "eng", 2, 1, d⟩] := by
  rw [writeFrames_tags, Option.getD_some, getallSylt_append, getallSylt_append,
    getallSylt_after_delall]
  simp [getallSylt]

/-- C5: a rung-1-successful embed always yields a container with exactly
one SYLT and one USLT frame — both for the first call and for a second
call in succession (even one whose source is the first call's output),
so duplicates never accumulate. -/
theorem embedSingleBlocks (env : Env) (tempDir audioPath : String) (src : MP3File)
    (ws : List WordData) (text name : String)
    (hl : noCallFails env.lib)
    (hne : (createSyltData ws).isEmpty = false) :
    ∀ f1, readFS (embed env tempDir audioPath src ws text name).2
        (embed env tempDir audioPath src ws text name).1 = some f1 →
      countSyltF f1 = 1 ∧ countUsltF f1 = 1 ∧
      ∀ f2, readFS (embed env tempDir audioPath f1 ws text name).2
          (embed env tempDir audioPath f1 ws text name).1 = some f2 →
        countSyltF f2 = 1 ∧ countUsltF f2 = 1 := by
  intro f1 h1
  rw [embed_success env tempDir audioPath src ws text name hl hne, readFS_head] at h1
  cases h1
  refine ⟨countSylt_writeFrames _ _ _, countUslt_writeFrames _ _ _, fun f2 h2 => ?_⟩
  rw [embed_success env tempDir audioPath _ ws text name hl hne, readFS_head] at h2
  cases h2
  exact ⟨countSylt_writeFrames _ _ _, countUslt_writeFrames _ _ _⟩

theorem embedSingleBlocksW :
    noCallFails ⟨false, false, false, false, false⟩ ∧
    (createSyltData [⟨some "hi", some 1, none⟩]).isEmpty = false ∧
    ∀ f1, readFS (embed ⟨⟨false, false, false, false, false⟩, none⟩ "/t" "a.mp3" ⟨[0], none⟩
          [⟨some "hi", some 1, none⟩] "hi" "o.mp3").2
        (embed ⟨⟨false, false, false, false, false⟩, none⟩ "/t" "a.mp3" ⟨[0], none⟩
          [⟨some "hi", some 1, none⟩] "hi" "o.mp3").1 = some f1 →
      countSyltF f1 = 1 ∧ countUsltF f1 = 1 ∧
      ∀ f2, readFS (embed ⟨⟨false, false, false, false, false⟩, none⟩ "/t" "a.mp3" f1
            [⟨some "hi", some 1, none⟩] "hi" "o.mp3").2
          (embed ⟨⟨false, false, false, false, false⟩, none⟩ "/t" "a.mp3" f1
            [⟨some "hi", some 1, none⟩] "hi" "o.mp3").1 = some f2 →
        countSyltF f2 = 1 ∧ countUsltF f2 = 1 := by
  exact ⟨⟨rfl, rfl, rfl, rfl, rfl⟩, by decide,
    embedSingleBlocks ⟨⟨false, false, false, false, false⟩, none⟩ "/t" "a.mp3" ⟨[0], none⟩
      [⟨some "hi", some 1, none⟩] "hi" "o.mp3" ⟨rfl, rfl, rfl, rfl, rfl⟩ (by decide)⟩

lemma extract_writeFrames (f : MP3File) (d : List (String × ℤ)) (t : String)
    (hd : d.isEmpty = false) :
    extract (Except.ok (writeFrames f d t))
      = d.map (fun en => (en.1, (en.2 : ℚ) / 1000)) := by
  have htags := writeFrames_tags f d t
  have hget := getallSylt_writeFrames f d t
  rw [htags, Option.getD_some] at hget
  simp only [extract, htags]
  have hne2 : ((((f.tags.getD []).filter (fun fr => !frameIsSylt fr)).filter
        (fun fr => !frameIsUslt fr) ++ [Frame.sylt ⟨3, "eng", 2, 1, d⟩])
      ++ [Frame.uslt ⟨3, "eng", "", t⟩]).isEmpty = false := by
    simp [List.isEmpty_eq_false]
  rw [hne2, hget]
  simp only [List.flatMap_cons, List.flatMap_nil, List.append_nil, hd,
    Bool.false_eq_true, if_false, ite_false]

/-- C4: when embedding succeeds on rung 1, extracting from the output
returns exactly the constructed entries, in order, with each text equal
to the entry's text and each timestamp `ms / 1000` seconds — equal to
the entry's start time at millisecond precision, since multiplying back
by 1000 recovers the stored integer milliseconds exactly. -/
theorem embedExtractRoundTrip (env : Env) (tempDir audioPath : String) (src : MP3File)
    (ws : List WordData) (text name : String)
    (hl : noCallFails env.lib)
    (hne : (createSyltData ws).isEmpty = false) :
    extract (readFileFS (embed env tempDir audioPath src ws text name).2
        (embed env tempDir audioPath src ws text name).1)
      = (createSyltData ws).map (fun en => (en.1, (en.2 : ℚ) / 1000)) ∧
    ∀ en ∈ createSyltData ws, ((en.2 : ℚ) / 1000) * 1000 = (en.2 : ℚ) := by
  constructor
  · rw [embed_success env tempDir audioPath src ws text name hl hne, readFileFS, readFS_head]
    exact extract_writeFrames _ _ _ hne
  · intro en _
    field_simp

theorem embedExtractRoundTripW :
    noCallFails ⟨false, false, false, false, false⟩ ∧
    (createSyltData [⟨some "hi", some 1, none⟩]).isEmpty = false ∧
    extract (readFileFS (embed ⟨⟨false, false, false, false, false⟩, none⟩ "/t" "a.mp3"
          ⟨[0], none⟩ [⟨some "hi", some 1, none⟩] "hi" "o.mp3").2
        (embed ⟨⟨false, false, false, false, false⟩, none⟩ "/t" "a.mp3"
          ⟨[0], none⟩ [⟨some "hi", some 1, none⟩] "hi" "o.mp3").1)
      = (createSyltData [⟨some "hi", some 1, none⟩]).map
          (fun en => (en.1, (en.2 : ℚ) / 1000)) := by
  exact ⟨⟨rfl, rfl, rfl, rfl, rfl⟩, by decide,
    (embedExtractRoundTrip ⟨⟨false, false, false, false, false⟩, none⟩ "/t" "a.mp3"
      ⟨[0], none⟩ [⟨some "hi", some 1, none⟩] "hi" "o.mp3"
      ⟨rfl, rfl, rfl, rfl, rfl⟩ (by decide)).1⟩

/-! Helper lemmas about the accumulate-and-flush grouping loop. -/

lemma chunkLoop_mem_ne_nil (k : ℕ) :
    ∀ (ws acc g : List WordData), g ∈ chunkLoop k acc ws → g ≠ [] := by
  intro ws
  induction ws with
  | nil =>
    intro acc g hg
    by_cases h : acc.isEmpty
    · simp [chunkLoop, h] at hg
    · simp only [chunkLoop, h, Bool.false_eq_true, if_false, ite_false,
        List.mem_singleton] at hg
      subst hg
      simpa [List.isEmpty_iff] using h
  | cons w rest ih =>
    intro acc g hg
    simp only [chunkLoop] at hg
    by_cases h : k ≤ (acc ++ [w]).length
    · rw [if_pos h] at hg
      rcases List.mem_cons.mp hg with h1 | h1
      · subst h1
        simp
      · exact ih [] g h1
    · rw [if_neg h] at hg
      exact ih (acc ++ [w]) g hg

lemma lineLoop_eq_filterMap (k : ℕ) :
    ∀ (ws acc : List WordData),
      lineLoop k acc ws = (chunkLoop k acc ws).filterMap lineEntry := by
  intro ws
  induction ws with
  | nil =>
    intro acc
    by_cases h : acc.isEmpty
    · have hnil : acc = [] := by simpa [List.isEmpty_iff] using h
      subst hnil
      simp [lineLoop, chunkLoop, lineEntry]
    · simp only [lineLoop, chunkLoop, h, Bool.false_eq_true, if_false, ite_false]
      cases he : lineEntry acc <;> simp [List.filterMap_cons, he]
  | cons w rest ih =>
    intro acc
    simp only [lineLoop, chunkLoop]
    by_cases h : k ≤ (acc ++ [w]).length
    · rw [if_pos h, if_pos h, List.filterMap_cons]
      cases he : lineEntry (acc ++ [w]) <;> simp [he, ih []]
    · rw [if_neg h, if_neg h]
      exact ih (acc ++ [w])

lemma chunkLoop_length (k : ℕ) (hk : 1 ≤ k) :
    ∀ (ws acc : List WordData), acc.length < k →
      (chunkLoop k acc ws).length = (acc.length + ws.length + k - 1) / k := by
  intro ws
  induction ws with
  | nil =>
    intro acc ha
    by_cases h : acc = []
    · subst h
      simp only [chunkLoop, List.isEmpty_nil, if_true, ite_true, List.length_nil,
        Nat.zero_add, Nat.add_zero]
      symm
      exact Nat.div_eq_of_lt (by omega)
    · have ha1 : 0 < acc.length := List.length_pos.mpr h
      have hF : acc.isEmpty = false := List.isEmpty_eq_false.mpr h
      simp only [chunkLoop, hF, Bool.false_eq_true, if_false, ite_false,
        List.length_singleton, List.length_nil]
      symm
      exact Nat.div_eq_of_lt_le (by omega) (by omega)
  | cons w rest ih =>
    intro acc ha
    simp only [chunkLoop]
    by_cases h : k ≤ (acc ++ [w]).length
    · rw [if_pos h]
      have hlen : (acc ++ [w]).length = acc.length + 1 := by simp
      have hak : acc.length + 1 = k := by
        rw [hlen] at h
        omega
      rw [List.length_cons, ih [] (by simp only [List.length_nil]; omega)]
      rw [show acc.length + (w :: rest).length + k - 1
          = ([] : List WordData).length + rest.length + k - 1 + k by simp; omega]
      rw [Nat.add_div_right _ (by omega)]
    · rw [if_neg h]
      rw [ih (acc ++ [w]) (by simpa using h)]
      congr 1
      simp
      omega

lemma filterMap_lineEntry_eq_map (l : List (List WordData))
    (hne : ∀ g ∈ l, g ≠ []) (ht : ∀ g ∈ l, lineText g ≠ "") :
    l.filterMap lineEntry
      = l.map (fun g =>
          (lineText g, pyInt (((g.headD ⟨none, none, none⟩).start.getD 0) * 1000))) := by
  induction l with
  | nil => rfl
  | cons g l ih =>
    have hg := hne g (by simp)
    have htg := ht g (by simp)
    rw [List.filterMap_cons, List.map_cons]
    cases g with
    | nil => exact absurd rfl hg
    | cons w gs =>
      have he : lineEntry (w :: gs)
          = some (lineText (w :: gs), pyInt ((w.start.getD 0) * 1000)) := by
        simp only [lineEntry, htg, ne_eq, not_false_iff, if_pos, ite_true]
      rw [he]
      simp only [List.headD_cons]
      rw [ih (fun g hgl => hne g (by simp [hgl])) (fun g hgl => ht g (by simp [hgl]))]

/-- C3 (amended: groups whose joined stripped text is empty are skipped,
so the count is exactly ceil(n/k) provided every formed group has
non-empty joined text): per-line construction with group size `k ≥ 1`
over `n` words yields one entry per group — including the trailing
partial group — whose text is the group's joined text and whose
timestamp is `int(start * 1000)` of the group's first word, and the
number of entries is `ceil(n/k) = (n + k - 1) / k`. -/
theorem lineEntriesCeil (k : ℕ) (ws : List WordData) (hk : 1 ≤ k)
    (h : ∀ g ∈ chunkLoop k [] ws, lineText g ≠ "") :
    createLineBasedSyltData ws k
        = (chunkLoop k [] ws).map (fun g =>
            (lineText g, pyInt (((g.headD ⟨none, none, none⟩).start.getD 0) * 1000))) ∧
    (createLineBasedSyltData ws k).length = (ws.length + k - 1) / k := by
  have he : createLineBasedSyltData ws k
      = (chunkLoop k [] ws).map (fun g =>
          (lineText g, pyInt (((g.headD ⟨none, none, none⟩).start.getD 0) * 1000))) := by
    rw [createLineBasedSyltData, lineLoop_eq_filterMap]
    exact filterMap_lineEntry_eq_map _ (fun g hg => chunkLoop_mem_ne_nil k ws [] g hg) h
  refine ⟨he, ?_⟩
  rw [he, List.length_map, chunkLoop_length k hk ws [] (by simp only [List.length_nil]; omega)]
  norm_num

theorem lineEntriesCeilW :
    1 ≤ 2 ∧
    (∀ g ∈ chunkLoop 2 [] [⟨some "a", some 0, none⟩, ⟨some "b", some 0, none⟩,
        ⟨some "c", some 0, none⟩], lineText g ≠ "") ∧
    (createLineBasedSyltData [⟨some "a", some 0, none⟩, ⟨some "b", some 0, none⟩,
        ⟨some "c", some 0, none⟩] 2).length
      = (([⟨some "a", some 0, none⟩, ⟨some "b", some 0, none⟩,
          ⟨some "c", some 0, none⟩] : List WordData).length + 2 - 1) / 2 := by
  exact ⟨by decide, by decide,
    (lineEntriesCeil 2 [⟨some "a", some 0, none⟩, ⟨some "b", some 0, none⟩,
      ⟨some "c", some 0, none⟩] (by decide) (by decide)).2⟩

/-- C3 counterexample: one word whose text is empty gives 0 entries, not
ceil(1/2) = 1 — the all-empty group is skipped. -/
theorem lineEntriesCeilCx :
    (createLineBasedSyltData [⟨some "", some 0, none⟩] 2).length ≠ (1 + 2 - 1) / 2 := by
  decide

/-- C8: caption export of 9 words (group size 8) gives exactly 2 lines,
each of the form `lrcTimestamp start ++ joined words` — the `[mm:ss.hh]`
stamp followed by the line text — the second line holding only the ninth
word under that word's own start-time stamp. -/
theorem lrcNineWordsTwoLines (ws : List WordData) (h : ws.length = 9) :
    lrcLines ws = [lrcLine (ws.take 8), lrcLine (ws.drop 8)] ∧
    (lrcLines ws).length = 2 ∧
    lrcLine (ws.drop 8)
      = lrcTimestamp ((ws.getD 8 ⟨none, none, none⟩).start.getD 0)
          ++ ((ws.getD 8 ⟨none, none, none⟩).word.getD "") ∧
    createLrcContent ws = lrcLine (ws.take 8) ++ "\n" ++ lrcLine (ws.drop 8) := by
  rcases ws with _ | ⟨a, _ | ⟨b, _ | ⟨c, _ | ⟨d, _ | ⟨e, _ | ⟨f, _ | ⟨g, _ |
    ⟨w8, _ | ⟨i, t⟩⟩⟩⟩⟩⟩⟩⟩⟩ <;>
      simp only [List.length_cons, List.length_nil] at h <;> try omega
  have ht : t = [] := List.eq_nil_of_length_eq_zero (by omega)
  subst ht
  refine ⟨?_, ?_, ?_, ?_⟩ <;>
    simp [lrcLines, lrcLoop, lrcLine, createLrcContent, pyJoin, List.getD]

theorem lrcNineWordsTwoLinesW :
    ([⟨some "w1", some 0, none⟩, ⟨some "w2", some 0, none⟩, ⟨some "w3", some 0, none⟩,
      ⟨some "w4", some 0, none⟩, ⟨some "w5", some 0, none⟩, ⟨some "w6", some 0, none⟩,
      ⟨some "w7", some 0, none⟩, ⟨some "w8", some 0, none⟩,
      ⟨some "w9", some 65, none⟩] : List WordData).length = 9 ∧
    (lrcLines [⟨some "w1", some 0, none⟩, ⟨some "w2", some 0, none⟩,
      ⟨some "w3", some 0, none⟩, ⟨some "w4", some 0, none⟩, ⟨some "w5", some 0, none⟩,
      ⟨some "w6", some 0, none⟩, ⟨some "w7", some 0, none⟩, ⟨some "w8", some 0, none⟩,
      ⟨some "w9", some 65, none⟩]).length = 2 := by
  exact ⟨by decide,
    (lrcNineWordsTwoLines [⟨some "w1", some 0, none⟩, ⟨some "w2", some 0, none⟩,
      ⟨some "w3", some 0, none⟩, ⟨some "w4", some 0, none⟩, ⟨some "w5", some 0, none⟩,
      ⟨some "w6", some 0, none⟩, ⟨some "w7", some 0, none⟩, ⟨some "w8", some 0, none⟩,
      ⟨some "w9", some 65, none⟩] (by decide)).2.1⟩

end SyncMaster
